import Mathlib

/-!
Verification of the oscilloscope GUI acquisition backend
(`src/src-tauri/src/lib.rs`): a shallow embedding of the packet
framing/decoding protocol (`mod adc`), the CSV logger (`mod logger`) and
the display-line sink (`read_serial_into_buffer` / `get_serial_data`),
with theorems settling the specification's claims.

Modelling conventions:
* Bytes are `Nat` (the Rust `u8` values; all literals are < 256 and the
  operations used — `&&& 3`, `<<< 8`, `||| lo`, equality tests against
  marker constants — behave identically on `Nat` for byte inputs).
* `VecDeque<u8>` becomes `List Nat` with the head of the list as the
  front of the deque: `pop_front` is `List.drop 1` / pattern matching,
  `extend` at the back is `++`.
* `f32` becomes `ℚ`.  Every voltage the code computes is
  `(raw as i16) * (10.0 / 32768.0)`; since `|i16| ≤ 32768` and
  `10.0 / 32768.0 = 1.25 * 2^-12` is a dyadic rational with a 3-bit
  mantissa, each such product has a mantissa of at most 18 bits and is
  therefore computed exactly in `f32`.  Comparisons and equalities on
  these values thus coincide with the exact rational ones, so `ℚ` is a
  faithful model of every `f32` value and comparison the code performs.
* `timestamp` (wall-clock nanoseconds read at decode time) is omitted
  from the model: no claim depends on it and it is the only
  non-deterministic field.
* The local mutable `triggered` flag of `process_packets` is threaded
  through the loop explicitly and returned alongside the result so that
  its final value can be spoken about; `process_packets` itself discards
  it, exactly as the Rust function does when it returns.
* The loop is written with fuel (one unit per iteration of the Rust
  `while` loop); every iteration removes at least one byte from the
  buffer, so `buffer.length` units of fuel always suffice — this is
  proved (`processLoop_fuel_irrel`), making the fuel formulation
  extensionally equal to the unbounded loop.
-/

/-- `const START_BYTE: u8 = 0xAA`. -/
def START_BYTE : Nat := 0xAA

/-- `const STOP_BYTE: u8 = 0x55`. -/
def STOP_BYTE : Nat := 0x55

/-- `const TRIGGER_BYTE: u8 = 0xCC`. -/
def TRIGGER_BYTE : Nat := 0xCC

/-- `struct TriggerConfig` (`level: f32` modelled as `ℚ`, see header). -/
structure TriggerConfig where
  enabled : Bool
  channel : Nat
  level : ℚ
  rising_edge : Bool
deriving DecidableEq

/-- `struct AdcSample` (without the `timestamp` field, see header). -/
structure AdcSample where
  channel : Nat
  raw_value : Nat
  voltage : ℚ
  is_trigger : Bool
deriving DecidableEq

/-- `struct PacketProcessor`. -/
structure PacketProcessor where
  buffer : List Nat
  samples_received : Nat
  channel_counts : List Nat
  active_channels : List Bool
  trigger_config : TriggerConfig
deriving DecidableEq

/-- `PacketProcessor::new()`. -/
def PacketProcessor.new : PacketProcessor :=
  { buffer := []
    samples_received := 0
    channel_counts := [0, 0, 0, 0]
    active_channels := [true, true, false, false]
    trigger_config := { enabled := false, channel := 0, level := 0, rising_edge := true } }

/-- `PacketProcessor::add_bytes`: `self.buffer.extend(bytes)`. -/
def PacketProcessor.add_bytes (p : PacketProcessor) (bytes : List Nat) : PacketProcessor :=
  { p with buffer := p.buffer ++ bytes }

/-- The loop of `PacketProcessor::set_active_channels` building `new_channels`:
starting from `[false; 4]`, set index `i` to true when `channels[i]` is set and
fewer than 2 entries have been kept so far (`count` is the running counter). -/
def keepFirstTwo : List Bool → Nat → List Bool
  | [], _ => []
  | b :: rest, count =>
    if b && decide (count < 2) then true :: keepFirstTwo rest (count + 1)
    else false :: keepFirstTwo rest count

/-- `PacketProcessor::set_active_channels`. -/
def PacketProcessor.set_active_channels (p : PacketProcessor) (channels : List Bool) :
    PacketProcessor :=
  let active_count := (channels.filter (fun x => x)).length
  if 2 < active_count then { p with active_channels := keepFirstTwo channels 0 }
  else { p with active_channels := channels }

/-- The `u16 as i16` reinterpretation used in `decode_packet`
(`raw_data as i16`): two's-complement reading of the low 16 bits. -/
def toSigned16 (raw : Nat) : Int :=
  if raw % 65536 < 32768 then (raw % 65536 : Int) else (raw % 65536 : Int) - 65536

/-- `PacketProcessor::decode_packet`.  `packet[i]` becomes `getD i 0`; at every
call site the packet length is 5 or 6, so all accesses are in bounds. -/
def decode_packet (packet : List Nat) : Option AdcSample :=
  if packet.getD 0 0 ≠ START_BYTE ∨ packet.getD (packet.length - 1) 0 ≠ STOP_BYTE then
    none
  else
    let channel := packet.getD 1 0 &&& 0x03
    let raw_data := (packet.getD 2 0) <<< 8 ||| (packet.getD 3 0)
    let is_trigger := decide (5 < packet.length) && decide (packet.getD 4 0 = TRIGGER_BYTE)
    some { channel := channel
           raw_value := raw_data
           voltage := (toSigned16 raw_data : ℚ) * (10 / 32768)
           is_trigger := is_trigger }

/-- The inner resynchronization loop of `process_packets`:
`while self.buffer.len() >= 5 && self.buffer[0] != START_BYTE { pop_front }`. -/
def skipToStart : List Nat → List Nat
  | [] => []
  | b :: rest =>
    if 5 ≤ (b :: rest).length ∧ b ≠ START_BYTE then skipToStart rest else b :: rest

/-- `let has_trigger = self.buffer.len() >= 6 && self.buffer[4] == TRIGGER_BYTE`. -/
def hasTriggerMarker (buf : List Nat) : Bool :=
  decide (6 ≤ buf.length) && decide (buf.getD 4 0 = TRIGGER_BYTE)

/-- `let packet_size = if has_trigger { 6 } else { 5 }`. -/
def packetSize (buf : List Nat) : Nat :=
  if hasTriggerMarker buf then 6 else 5

/-- `let stop_pos = if has_trigger { 5 } else { 4 }`. -/
def stopPos (buf : List Nat) : Nat :=
  if hasTriggerMarker buf then 5 else 4

/-- Lines 143–153 of `process_packets`: the `is_trigger_point` computation for
a decoded sample — recompute the level comparison when trigger is enabled and
the sample is on the trigger channel, otherwise keep the wire-level flag. -/
def evalTriggerPoint (p : PacketProcessor) (sample : AdcSample) : Bool :=
  if p.trigger_config.enabled && (sample.channel == p.trigger_config.channel) then
    if p.trigger_config.rising_edge then
      decide (p.trigger_config.level < sample.voltage)
    else
      decide (sample.voltage < p.trigger_config.level)
  else sample.is_trigger

/-- Lines 138–172 of `process_packets`: channel gating, trigger evaluation and
the conditional push of a decoded `sample`, given the local `triggered` flag
and the buffer contents `rest` left after extracting the packet.  Returns the
updated processor and `(new triggered flag, pushed sample if any)`. -/
def gateSample (p : PacketProcessor) (triggered : Bool) (rest : List Nat)
    (sample : AdcSample) : PacketProcessor × Option (Bool × Option AdcSample) :=
  if p.active_channels.getD sample.channel false then
    let is_trigger_point : Bool := evalTriggerPoint p sample
    let triggered2 := triggered || is_trigger_point
    if !p.trigger_config.enabled || triggered2 then
      ({ p with
          buffer := rest
          samples_received := p.samples_received + 1
          channel_counts := p.channel_counts.set sample.channel
            (p.channel_counts.getD sample.channel 0 + 1) },
       some (triggered2, some { sample with is_trigger := is_trigger_point }))
    else
      ({ p with buffer := rest }, some (triggered2, none))
  else
    ({ p with buffer := rest }, some (triggered, none))

/-- One iteration of `process_packets`' outer `while` loop, with the local
mutable `triggered` flag threaded explicitly.  The result is the updated
processor, paired with `none` when the loop exits (`break`, or the `while`
condition failing), or `some (triggered, emitted)` when the iteration ends in
`continue` / falls through to the next iteration, where `emitted` is the
sample pushed onto `samples` by this iteration, if any. -/
def processStep (p : PacketProcessor) (triggered : Bool) :
    PacketProcessor × Option (Bool × Option AdcSample) :=
  if p.buffer.length < 5 then (p, none)
  else
    let buf := skipToStart p.buffer
    if buf.length < 5 then ({ p with buffer := buf }, none)
    else if buf.length < packetSize buf then ({ p with buffer := buf }, none)
    else if buf.getD (stopPos buf) 0 ≠ STOP_BYTE then
      ({ p with buffer := buf.drop 1 }, some (triggered, none))
    else
      match decode_packet (buf.take (packetSize buf)) with
      | none => ({ p with buffer := buf.drop (packetSize buf) }, some (triggered, none))
      | some sample => gateSample p triggered (buf.drop (packetSize buf)) sample

/-- The outer `while` loop of `process_packets`: iterate `processStep`,
accumulating emitted samples in order.  One unit of fuel per iteration;
each continuing iteration removes at least one buffered byte, so
`buffer.length` units always suffice (`processLoop_fuel_irrel` below). -/
def processLoop : Nat → PacketProcessor → Bool → List AdcSample →
    PacketProcessor × Bool × List AdcSample
  | 0, p, triggered, acc => (p, triggered, acc)
  | fuel + 1, p, triggered, acc =>
    match processStep p triggered with
    | (p1, none) => (p1, triggered, acc)
    | (p1, some (t1, none)) => processLoop fuel p1 t1 acc
    | (p1, some (t1, some s)) => processLoop fuel p1 t1 (acc ++ [s])

/-- `PacketProcessor::process_packets`: run the loop with `triggered = false`
and an empty `samples` vector, return the updated processor and the samples
(the final value of the local `triggered` flag is dropped, as in the source). -/
def PacketProcessor.process_packets (p : PacketProcessor) :
    PacketProcessor × List AdcSample :=
  let r := processLoop p.buffer.length p false []
  (r.1, r.2.2)

/-- `struct Logger` (`mod logger`).  The `AtomicBool` and the `Mutex` protect
concurrent access; in this sequential model the lock always succeeds, so the
state is the recording flag plus the optional open file.  The file is modelled
by the list of records appended since `start()` (the CSV header and text
rendering carry no information beyond the records themselves). -/
structure Logger where
  recording : Bool
  file : Option (List AdcSample)
deriving DecidableEq

/-- `Logger::new()`. -/
def Logger.new : Logger :=
  { recording := false, file := none }

/-- `Logger::start()`: create a fresh (truncated) file, write the header,
install it, set `recording`.  File creation succeeds in this model (I/O is
outside the shallow embedding); the fresh file holds no records yet. -/
def Logger.start (_l : Logger) : Logger × Except String Unit :=
  ({ recording := true, file := some [] }, Except.ok ())

/-- `Logger::stop()`: clear `recording`, drop the file handle, return `Ok`. -/
def Logger.stop (_l : Logger) : Logger × Except String Unit :=
  ({ recording := false, file := none }, Except.ok ())

/-- `Logger::is_recording()`. -/
def Logger.is_recording (l : Logger) : Bool :=
  l.recording

/-- `Logger::log_sample`: early `Ok(())` return when not recording; otherwise
append one record to the open file, if any (writes succeed in this model). -/
def Logger.log_sample (l : Logger) (sample : AdcSample) : Logger × Except String Unit :=
  if !l.is_recording then (l, Except.ok ())
  else
    match l.file with
    | none => (l, Except.ok ())
    | some recs => ({ l with file := some (recs ++ [sample]) }, Except.ok ())

/-- The display-record publication step inside `read_serial_into_buffer`
(lines 438–441): `if buf.len() >= buffer_size { buf.remove(0); } buf.push(line)`.
The shared `Vec<String>` is the list of rendered display lines, oldest first. -/
def publishRecord (buffer_size : Nat) (buf : List String) (line : String) : List String :=
  (if buffer_size ≤ buf.length then buf.drop 1 else buf) ++ [line]

/-- `get_serial_data` in the initialized-buffer case: clone the buffer's
contents, clear it, return the clone as `Ok`.  The result is the returned
value paired with the buffer's new contents. -/
def get_serial_data (buf : List String) : Except String (List String) × List String :=
  (Except.ok buf, [])

/-! ### Derived notions used by the theorems -/

/-- The sample decoded from a well-formed 5-byte frame `[START, c, h, l, STOP]`
(this is what `decode_packet` returns on it, see `decode_packet_frame5`). -/
def sample5 (c h l : Nat) : AdcSample :=
  { channel := c &&& 0x03
    raw_value := h <<< 8 ||| l
    voltage := (toSigned16 (h <<< 8 ||| l) : ℚ) * (10 / 32768)
    is_trigger := false }

/-- The sample decoded from a well-formed 6-byte trigger frame
`[START, c, h, l, TRIGGER, STOP]` (see `decode_packet_frame6`). -/
def sample6 (c h l : Nat) : AdcSample :=
  { sample5 c h l with is_trigger := true }

/-- Forget a sample's (policy-dependent) trigger flag, keeping the decoded
payload: used to compare sample streams up to trigger classification. -/
def stripT (s : AdcSample) : AdcSample :=
  { s with is_trigger := false }

/-- The same processor with the trigger policy switched off. -/
def disable (p : PacketProcessor) : PacketProcessor :=
  { p with trigger_config := { p.trigger_config with enabled := false } }

/-- The state update of `process_packets`' push branch (lines 163–170): record
the emitted sample by advancing `samples_received` and the per-channel count,
with `rest` the buffer left after extracting the packet. -/
def bumpCounts (p : PacketProcessor) (rest : List Nat) (ch : Nat) : PacketProcessor :=
  { p with
    buffer := rest
    samples_received := p.samples_received + 1
    channel_counts := p.channel_counts.set ch (p.channel_counts.getD ch 0 + 1) }

/-- The loop of `process_packets` with exactly as much fuel as it can consume;
`process_packets p = (fun r => (r.1, r.2.2)) (processRun p false [])`. -/
def processRun (p : PacketProcessor) (triggered : Bool) (acc : List AdcSample) :
    PacketProcessor × Bool × List AdcSample :=
  processLoop p.buffer.length p triggered acc

/-- A byte stream consisting of `samples`' well-formed frames (on channels
active in `active`), in order, interleaved with garbage bytes that are never
`START_BYTE`.  `trailing` allows arbitrary such garbage after the last frame. -/
inductive WellFormedStream (active : List Bool) : List Nat → List AdcSample → Prop where
  | trailing (g : List Nat) (hg : ∀ b ∈ g, b ≠ START_BYTE) :
      WellFormedStream active g []
  | frame5 (g : List Nat) (hg : ∀ b ∈ g, b ≠ START_BYTE) (c h l : Nat)
      (hact : active.getD (c &&& 0x03) false = true)
      (rest : List Nat) (samples : List AdcSample)
      (htail : WellFormedStream active rest samples) :
      WellFormedStream active (g ++ [START_BYTE, c, h, l, STOP_BYTE] ++ rest)
        (sample5 c h l :: samples)
  | frame6 (g : List Nat) (hg : ∀ b ∈ g, b ≠ START_BYTE) (c h l : Nat)
      (hact : active.getD (c &&& 0x03) false = true)
      (rest : List Nat) (samples : List AdcSample)
      (htail : WellFormedStream active rest samples) :
      WellFormedStream active
        (g ++ [START_BYTE, c, h, l, TRIGGER_BYTE, STOP_BYTE] ++ rest)
        (sample6 c h l :: samples)

/-! ### Resynchronization lemmas -/

theorem skipToStart_short {l : List Nat} (h : l.length < 5) : skipToStart l = l := by
  cases l with
  | nil => rfl
  | cons b rest =>
    unfold skipToStart
    rw [if_neg]
    rintro ⟨h5, -⟩
    omega

theorem skipToStart_head_start (rest : List Nat) :
    skipToStart (START_BYTE :: rest) = START_BYTE :: rest := by
  unfold skipToStart
  rw [if_neg]
  rintro ⟨-, hne⟩
  exact hne rfl

theorem skipToStart_cons {b : Nat} {rest : List Nat} (hb : b ≠ START_BYTE)
    (h5 : 5 ≤ (b :: rest).length) : skipToStart (b :: rest) = skipToStart rest := by
  conv_lhs => rw [skipToStart]
  rw [if_pos ⟨h5, hb⟩]

theorem skipToStart_length_le : ∀ l : List Nat, (skipToStart l).length ≤ l.length := by
  intro l
  induction l with
  | nil => simp [skipToStart]
  | cons b rest ih =>
    unfold skipToStart
    split
    · exact le_trans ih (by simp)
    · exact le_refl _

theorem skipToStart_garbage_le {g : List Nat} (hg : ∀ b ∈ g, b ≠ START_BYTE) :
    (skipToStart g).length ≤ 4 := by
  induction g with
  | nil => simp [skipToStart]
  | cons b rest ih =>
    unfold skipToStart
    split
    · exact ih fun x hx => hg x (List.mem_cons_of_mem b hx)
    · next hn =>
      have hb : b ≠ START_BYTE := hg b (List.mem_cons_self b _)
      have : ¬ 5 ≤ (b :: rest).length := fun h5 => hn ⟨h5, hb⟩
      simp only [List.length_cons] at this ⊢
      omega

theorem skipToStart_append {g rest : List Nat} (hg : ∀ b ∈ g, b ≠ START_BYTE)
    (h5 : 5 ≤ rest.length) : skipToStart (g ++ rest) = skipToStart rest := by
  induction g with
  | nil => simp
  | cons b t ih =>
    have hlen : 5 ≤ (b :: (t ++ rest)).length := by
      simp only [List.length_cons, List.length_append]
      omega
    rw [List.cons_append, skipToStart_cons (hg b (List.mem_cons_self b _)) hlen,
      ih fun x hx => hg x (List.mem_cons_of_mem b hx)]

/-! ### Frame-size and decoding lemmas -/

theorem packetSize_eq_or (buf : List Nat) : packetSize buf = 5 ∨ packetSize buf = 6 := by
  unfold packetSize
  split
  · exact Or.inr rfl
  · exact Or.inl rfl

theorem packetSize_le {buf : List Nat} (h5 : 5 ≤ buf.length) :
    packetSize buf ≤ buf.length := by
  unfold packetSize
  split
  · next ht =>
    unfold hasTriggerMarker at ht
    simp only [Bool.and_eq_true, decide_eq_true_eq] at ht
    exact ht.1
  · exact h5

theorem decode_packet_frame5 (c h l : Nat) :
    decode_packet [START_BYTE, c, h, l, STOP_BYTE] = some (sample5 c h l) := by
  simp [decode_packet, sample5]

theorem decode_packet_frame6 (c h l : Nat) :
    decode_packet [START_BYTE, c, h, l, TRIGGER_BYTE, STOP_BYTE] = some (sample6 c h l) := by
  simp [decode_packet, sample6, sample5, STOP_BYTE, TRIGGER_BYTE]

theorem decode_packet_channel_lt {packet : List Nat} {s : AdcSample}
    (hdec : decode_packet packet = some s) : s.channel < 4 := by
  unfold decode_packet at hdec
  split at hdec
  · exact absurd hdec (by simp)
  · simp only [Option.some.injEq] at hdec
    have : s.channel = packet.getD 1 0 &&& 0x03 := by rw [← hdec]
    rw [this]
    have := Nat.and_le_right (n := packet.getD 1 0) (m := 0x03)
    omega

/-! ### Single-step characterizations -/

theorem processStep_stop {p : PacketProcessor} {t : Bool} (h : p.buffer.length < 5) :
    processStep p t = (p, none) := by
  unfold processStep
  rw [if_pos h]

theorem gateSample_buffer (p : PacketProcessor) (t : Bool) (rest : List Nat)
    (s : AdcSample) : ((gateSample p t rest s).1).buffer = rest := by
  simp only [gateSample]
  split_ifs <;> rfl

theorem gateSample_snd_isSome (p : PacketProcessor) (t : Bool) (rest : List Nat)
    (s : AdcSample) : ((gateSample p t rest s).2).isSome = true := by
  simp only [gateSample]
  split_ifs <;> rfl

theorem processStep_none_eq {p p1 : PacketProcessor} {t : Bool}
    (h : processStep p t = (p1, none)) :
    p1 = { p with buffer := skipToStart p.buffer } ∧ (skipToStart p.buffer).length < 5 := by
  simp only [processStep] at h
  split at h
  · rename_i hc1
    have hs : skipToStart p.buffer = p.buffer := skipToStart_short hc1
    simp only [Prod.mk.injEq] at h
    refine ⟨?_, by rw [hs]; exact hc1⟩
    rw [← h.1, hs]
  · split at h
    · rename_i hc2
      simp only [Prod.mk.injEq] at h
      exact ⟨h.1.symm, hc2⟩
    · split at h
      · rename_i hc1 hc2 hc3
        exfalso
        rcases packetSize_eq_or (skipToStart p.buffer) with h5 | h6
        · omega
        · rw [h6] at hc3
          have : hasTriggerMarker (skipToStart p.buffer) = true := by
            by_contra hf
            simp only [Bool.not_eq_true] at hf
            simp [packetSize, hf] at h6
          unfold hasTriggerMarker at this
          simp only [Bool.and_eq_true, decide_eq_true_eq] at this
          omega
      · split at h
        · simp at h
        · split at h
          · simp at h
          · rename_i sample heq
            have hs := gateSample_snd_isSome p t
              ((skipToStart p.buffer).drop (packetSize (skipToStart p.buffer))) sample
            rw [h] at hs
            simp at hs

theorem processStep_some_lt {p p1 : PacketProcessor} {t : Bool}
    {x : Bool × Option AdcSample}
    (h : processStep p t = (p1, some x)) : p1.buffer.length < p.buffer.length := by
  have hskip := skipToStart_length_le p.buffer
  simp only [processStep] at h
  split at h
  · simp at h
  · split at h
    · simp at h
    · split at h
      · simp at h
      · rename_i hc1 hc2 hc3
        split at h
        · simp only [Prod.mk.injEq] at h
          rw [← h.1]
          simp only [List.length_drop]
          omega
        · have hps := @packetSize_le (skipToStart p.buffer) (by omega)
          split at h
          · simp only [Prod.mk.injEq] at h
            rw [← h.1]
            simp only [List.length_drop]
            rcases packetSize_eq_or (skipToStart p.buffer) with h5 | h6 <;> omega
          · rename_i sample heq
            have hb := gateSample_buffer p t
              ((skipToStart p.buffer).drop (packetSize (skipToStart p.buffer))) sample
            have : p1 = (gateSample p t
                ((skipToStart p.buffer).drop (packetSize (skipToStart p.buffer))) sample).1 := by
              rw [h]
            rw [this, hb]
            simp only [List.length_drop]
            rcases packetSize_eq_or (skipToStart p.buffer) with h5 | h6 <;> omega

/-! ### Fuel adequacy for the loop -/

theorem processLoop_short {g : Nat} {p : PacketProcessor} {t : Bool} {acc : List AdcSample}
    (h : p.buffer.length < 5) : processLoop g p t acc = (p, t, acc) := by
  cases g with
  | zero => rfl
  | succ n =>
    unfold processLoop
    rw [processStep_stop h]

theorem processLoop_fuel_irrel : ∀ (f g : Nat) (p : PacketProcessor) (t : Bool)
    (acc : List AdcSample), p.buffer.length ≤ f → p.buffer.length ≤ g →
    processLoop f p t acc = processLoop g p t acc := by
  intro f
  induction f with
  | zero =>
    intro g p t acc hf hg
    have h5 : p.buffer.length < 5 := by omega
    rw [processLoop_short h5, processLoop_short h5]
  | succ n ih =>
    intro g p t acc hf hg
    by_cases h5 : p.buffer.length < 5
    · rw [processLoop_short h5, processLoop_short h5]
    · cases g with
      | zero => omega
      | succ m =>
        show processLoop (n + 1) p t acc = processLoop (m + 1) p t acc
        unfold processLoop
        rcases hstep : processStep p t with ⟨p1, r⟩
        rcases r with - | ⟨t1, em⟩
        · rfl
        · have hlt := processStep_some_lt hstep
          rcases em with - | s
        
          · exact ih m p1 t1 acc (by omega) (by omega)
          · exact ih m p1 t1 (acc ++ [s]) (by omega) (by omega)

theorem processRun_done {p p1 : PacketProcessor} {t : Bool} {acc : List AdcSample}
    (h : processStep p t = (p1, none)) : processRun p t acc = (p1, t, acc) := by
  obtain ⟨hp1, hlen⟩ := processStep_none_eq h
  unfold processRun
  cases hl : p.buffer.length with
  | zero =>
    have hshort : p.buffer.length < 5 := by omega
    have hs : skipToStart p.buffer = p.buffer := skipToStart_short hshort
    rw [processLoop_short hshort, hp1, hs]
  | succ n =>
    unfold processLoop
    rw [h]

theorem processLoop_succ (f : Nat) (p : PacketProcessor) (t : Bool)
    (acc : List AdcSample) :
    processLoop (f + 1) p t acc
      = match processStep p t with
        | (p1, none) => (p1, t, acc)
        | (p1, some (t1, none)) => processLoop f p1 t1 acc
        | (p1, some (t1, some s)) => processLoop f p1 t1 (acc ++ [s]) := rfl

theorem processRun_step {p p1 : PacketProcessor} {t t1 : Bool} {em : Option AdcSample}
    {acc : List AdcSample} (h : processStep p t = (p1, some (t1, em))) :
    processRun p t acc = processRun p1 t1 (acc ++ em.toList) := by
  have h5 : ¬ p.buffer.length < 5 := by
    intro hlt
    rw [processStep_stop hlt] at h
    simp at h
  have hlt := processStep_some_lt h
  unfold processRun
  obtain ⟨n, hn⟩ : ∃ n, p.buffer.length = n + 1 := ⟨p.buffer.length - 1, by omega⟩
  rw [hn, processLoop_succ, h]
  cases em with
  | none =>
    show processLoop n p1 t1 acc = processLoop p1.buffer.length p1 t1 (acc ++ [])
    rw [List.append_nil]
    exact processLoop_fuel_irrel n p1.buffer.length p1 t1 acc (by omega) (le_refl _)
  | some s =>
    show processLoop n p1 t1 (acc ++ [s]) = processLoop p1.buffer.length p1 t1 (acc ++ [s])
    exact processLoop_fuel_irrel n p1.buffer.length p1 t1 (acc ++ [s]) (by omega) (le_refl _)

theorem processLoop_acc : ∀ (f : Nat) (p : PacketProcessor) (t : Bool)
    (acc : List AdcSample),
    processLoop f p t acc
      = ((processLoop f p t []).1, (processLoop f p t []).2.1,
         acc ++ (processLoop f p t []).2.2) := by
  intro f
  induction f with
  | zero => intro p t acc; simp [processLoop]
  | succ n ih =>
    intro p t acc
    rw [processLoop_succ, processLoop_succ]
    rcases hstep : processStep p t with ⟨p1, r⟩
    rcases r with - | ⟨t1, em⟩
    · simp
    · rcases em with - | s
      · exact ih p1 t1 acc
      · show processLoop n p1 t1 (acc ++ [s])
          = ((processLoop n p1 t1 ([] ++ [s])).1, (processLoop n p1 t1 ([] ++ [s])).2.1,
             acc ++ (processLoop n p1 t1 ([] ++ [s])).2.2)
        rw [ih p1 t1 (acc ++ [s]), ih p1 t1 ([] ++ [s])]
        simp

theorem processRun_acc (p : PacketProcessor) (t : Bool) (acc : List AdcSample) :
    processRun p t acc
      = ((processRun p t []).1, (processRun p t []).2.1,
         acc ++ (processRun p t []).2.2) := by
  unfold processRun
  exact processLoop_acc p.buffer.length p t acc

theorem process_packets_eq_run (p : PacketProcessor) :
    p.process_packets = ((processRun p false []).1, (processRun p false []).2.2) := by
  rfl

/-! ### Step lemmas for aligned frames, garbage and corrupted candidates -/

theorem processStep_frame5 {p : PacketProcessor} (g : List Nat) (c h l : Nat)
    (rest : List Nat) (t : Bool)
    (hbuf : p.buffer = g ++ [START_BYTE, c, h, l, STOP_BYTE] ++ rest)
    (hg : ∀ b ∈ g, b ≠ START_BYTE) :
    processStep p t = gateSample p t rest (sample5 c h l) := by
  have hr5 : (5 : Nat) ≤ (START_BYTE :: c :: h :: l :: STOP_BYTE :: rest).length := by
    simp only [List.length_cons]
    omega
  have hskip : skipToStart p.buffer = START_BYTE :: c :: h :: l :: STOP_BYTE :: rest := by
    rw [hbuf, List.append_assoc,
      show ([START_BYTE, c, h, l, STOP_BYTE] ++ rest)
        = START_BYTE :: c :: h :: l :: STOP_BYTE :: rest from rfl,
      skipToStart_append hg hr5, skipToStart_head_start]
  have hbl : ¬ p.buffer.length < 5 := by
    rw [hbuf]
    simp only [List.length_append, List.length_cons, List.length_nil]
    omega
  have hht : hasTriggerMarker (START_BYTE :: c :: h :: l :: STOP_BYTE :: rest) = false := by
    unfold hasTriggerMarker
    simp [STOP_BYTE, TRIGGER_BYTE]
  have hng : ¬ (START_BYTE :: c :: h :: l :: STOP_BYTE :: rest).length < 5 := by
    simp only [List.length_cons]
    omega
  have hps : packetSize (START_BYTE :: c :: h :: l :: STOP_BYTE :: rest) = 5 := by
    unfold packetSize
    rw [hht]
    rfl
  have hsp : stopPos (START_BYTE :: c :: h :: l :: STOP_BYTE :: rest) = 4 := by
    unfold stopPos
    rw [hht]
    rfl
  have hnps : ¬ (START_BYTE :: c :: h :: l :: STOP_BYTE :: rest).length
      < packetSize (START_BYTE :: c :: h :: l :: STOP_BYTE :: rest) := by
    rw [hps]
    simp only [List.length_cons]
    omega
  have hstopv : ¬ ((START_BYTE :: c :: h :: l :: STOP_BYTE :: rest).getD
      (stopPos (START_BYTE :: c :: h :: l :: STOP_BYTE :: rest)) 0 ≠ STOP_BYTE) := by
    rw [hsp]
    simp
  unfold processStep
  rw [if_neg hbl]
  simp only [hskip]
  rw [if_neg hng, if_neg hnps, if_neg hstopv, hps]
  rw [show (START_BYTE :: c :: h :: l :: STOP_BYTE :: rest).take 5
      = [START_BYTE, c, h, l, STOP_BYTE] from rfl,
    show (START_BYTE :: c :: h :: l :: STOP_BYTE :: rest).drop 5 = rest from rfl,
    decode_packet_frame5]

theorem processStep_frame6 {p : PacketProcessor} (g : List Nat) (c h l : Nat)
    (rest : List Nat) (t : Bool)
    (hbuf : p.buffer = g ++ [START_BYTE, c, h, l, TRIGGER_BYTE, STOP_BYTE] ++ rest)
    (hg : ∀ b ∈ g, b ≠ START_BYTE) :
    processStep p t = gateSample p t rest (sample6 c h l) := by
  have hr5 : (5 : Nat)
      ≤ (START_BYTE :: c :: h :: l :: TRIGGER_BYTE :: STOP_BYTE :: rest).length := by
    simp only [List.length_cons]
    omega
  have hskip : skipToStart p.buffer
      = START_BYTE :: c :: h :: l :: TRIGGER_BYTE :: STOP_BYTE :: rest := by
    rw [hbuf, List.append_assoc,
      show ([START_BYTE, c, h, l, TRIGGER_BYTE, STOP_BYTE] ++ rest)
        = START_BYTE :: c :: h :: l :: TRIGGER_BYTE :: STOP_BYTE :: rest from rfl,
      skipToStart_append hg hr5, skipToStart_head_start]
  have hbl : ¬ p.buffer.length < 5 := by
    rw [hbuf]
    simp only [List.length_append, List.length_cons, List.length_nil]
    omega
  have hht : hasTriggerMarker
      (START_BYTE :: c :: h :: l :: TRIGGER_BYTE :: STOP_BYTE :: rest) = true := by
    unfold hasTriggerMarker
    simp only [List.getD_cons_succ, List.getD_cons_zero, Bool.and_eq_true,
      decide_eq_true_eq]
    exact ⟨by simp only [List.length_cons]; omega, trivial⟩
  have hng : ¬ (START_BYTE :: c :: h :: l :: TRIGGER_BYTE :: STOP_BYTE :: rest).length
      < 5 := by
    simp only [List.length_cons]
    omega
  have hps : packetSize (START_BYTE :: c :: h :: l :: TRIGGER_BYTE :: STOP_BYTE :: rest)
      = 6 := by
    unfold packetSize
    rw [hht]
    rfl
  have hsp : stopPos (START_BYTE :: c :: h :: l :: TRIGGER_BYTE :: STOP_BYTE :: rest)
      = 5 := by
    unfold stopPos
    rw [hht]
    rfl
  have hnps : ¬ (START_BYTE :: c :: h :: l :: TRIGGER_BYTE :: STOP_BYTE :: rest).length
      < packetSize (START_BYTE :: c :: h :: l :: TRIGGER_BYTE :: STOP_BYTE :: rest) := by
    rw [hps]
    simp only [List.length_cons]
    omega
  have hstopv : ¬ ((START_BYTE :: c :: h :: l :: TRIGGER_BYTE :: STOP_BYTE :: rest).getD
      (stopPos (START_BYTE :: c :: h :: l :: TRIGGER_BYTE :: STOP_BYTE :: rest)) 0
      ≠ STOP_BYTE) := by
    rw [hsp]
    simp
  unfold processStep
  rw [if_neg hbl]
  simp only [hskip]
  rw [if_neg hng, if_neg hnps, if_neg hstopv, hps]
  rw [show (START_BYTE :: c :: h :: l :: TRIGGER_BYTE :: STOP_BYTE :: rest).take 6
      = [START_BYTE, c, h, l, TRIGGER_BYTE, STOP_BYTE] from rfl,
    show (START_BYTE :: c :: h :: l :: TRIGGER_BYTE :: STOP_BYTE :: rest).drop 6
      = rest from rfl,
    decode_packet_frame6]

theorem processStep_badStop {p : PacketProcessor} {rest2 : List Nat} (t : Bool)
    (hbuf : p.buffer = START_BYTE :: rest2)
    (h5 : 5 ≤ (START_BYTE :: rest2).length)
    (hstop : (START_BYTE :: rest2).getD (stopPos (START_BYTE :: rest2)) 0 ≠ STOP_BYTE) :
    processStep p t = ({ p with buffer := rest2 }, some (t, none)) := by
  have hskip : skipToStart p.buffer = START_BYTE :: rest2 := by
    rw [hbuf, skipToStart_head_start]
  have hbl : ¬ p.buffer.length < 5 := by
    rw [hbuf]
    omega
  have hng : ¬ (START_BYTE :: rest2).length < 5 := by omega
  have hnps : ¬ (START_BYTE :: rest2).length < packetSize (START_BYTE :: rest2) := by
    have := packetSize_le h5
    omega
  unfold processStep
  rw [if_neg hbl]
  simp only [hskip]
  rw [if_neg hng, if_neg hnps, if_pos hstop]
  rfl

theorem processStep_garbage {p : PacketProcessor} {g : List Nat} (t : Bool)
    (hbuf : p.buffer = g) (hg : ∀ b ∈ g, b ≠ START_BYTE) :
    processStep p t = ({ p with buffer := skipToStart g }, none) := by
  by_cases h5 : g.length < 5
  · rw [skipToStart_short h5, ← hbuf]
    exact processStep_stop (by rw [hbuf]; exact h5)
  · have hle := skipToStart_garbage_le hg
    unfold processStep
    rw [if_neg (by rw [hbuf]; exact h5)]
    simp only [hbuf]
    rw [if_pos (by omega)]

/-! ### Gating lemmas -/

theorem disable_buffer (p : PacketProcessor) : (disable p).buffer = p.buffer := rfl

theorem disable_enabled (p : PacketProcessor) :
    (disable p).trigger_config.enabled = false := rfl

theorem gateSample_inactive {p : PacketProcessor} {s : AdcSample}
    (h : p.active_channels.getD s.channel false = false) (t : Bool) (rest : List Nat) :
    gateSample p t rest s = ({ p with buffer := rest }, some (t, none)) := by
  unfold gateSample
  rw [h]
  simp

theorem gateSample_disabled {p : PacketProcessor} {s : AdcSample}
    (hen : p.trigger_config.enabled = false)
    (hact : p.active_channels.getD s.channel false = true) (t : Bool) (rest : List Nat) :
    gateSample p t rest s = (bumpCounts p rest s.channel, some (t || s.is_trigger, some s)) := by
  have hitp : evalTriggerPoint p s = s.is_trigger := by
    simp [evalTriggerPoint, hen]
  unfold gateSample bumpCounts
  rw [hact, hitp, hen]
  simp

theorem gateSample_open {p : PacketProcessor} {s : AdcSample}
    (hact : p.active_channels.getD s.channel false = true) (rest : List Nat) :
    gateSample p true rest s = (bumpCounts p rest s.channel,
      some (true, some { s with is_trigger := evalTriggerPoint p s })) := by
  unfold gateSample bumpCounts
  rw [hact]
  simp

theorem gateSample_true_fst {p : PacketProcessor} {rest : List Nat} {s : AdcSample}
    {x : Bool × Option AdcSample}
    (h : (gateSample p true rest s).2 = some x) : x.1 = true := by
  simp only [gateSample] at h
  split_ifs at h <;> simp only [Option.some.injEq] at h <;> rw [← h] <;> simp

theorem gateSample_emit_fst {p : PacketProcessor} {rest : List Nat} {s : AdcSample}
    {t x : Bool} {y : AdcSample} (hen : p.trigger_config.enabled = true)
    (h : (gateSample p t rest s).2 = some (x, some y)) : x = true := by
  simp only [gateSample] at h
  split_ifs at h with h1 h2
  · simp only [Option.some.injEq, Prod.mk.injEq] at h
    rw [← h.1]
    rw [hen] at h2
    simpa using h2
  · simp at h
  · simp at h

theorem processStep_fields (p : PacketProcessor) (t : Bool) :
    ((processStep p t).1).trigger_config = p.trigger_config ∧
    ((processStep p t).1).active_channels = p.active_channels := by
  simp only [processStep]
  split_ifs <;> try exact ⟨rfl, rfl⟩
  split
  · exact ⟨rfl, rfl⟩
  · rename_i sample heq
    simp only [gateSample]
    split_ifs <;> exact ⟨rfl, rfl⟩

theorem gateSample_disable (p : PacketProcessor) (t2 : Bool) (rest : List Nat)
    (s : AdcSample) :
    (gateSample (disable p) t2 rest s).1 = disable (gateSample p true rest s).1 ∧
    (∃ t3 em1 em2, (gateSample p true rest s).2 = some (true, em1) ∧
      (gateSample (disable p) t2 rest s).2 = some (t3, em2) ∧
      em1.map stripT = em2.map stripT) := by
  by_cases hact : p.active_channels.getD s.channel false = true
  · have hactd : (disable p).active_channels.getD s.channel false = true := hact
    rw [gateSample_open hact rest, gateSample_disabled (disable_enabled p) hactd t2 rest]
    exact ⟨rfl, ⟨t2 || s.is_trigger,
      some { s with is_trigger := evalTriggerPoint p s }, some s, rfl, rfl, rfl⟩⟩
  · have hactf : p.active_channels.getD s.channel false = false := by
      simpa using hact
    have hactfd : (disable p).active_channels.getD s.channel false = false := hactf
    rw [gateSample_inactive hactf true rest, gateSample_inactive hactfd t2 rest]
    exact ⟨rfl, ⟨t2, none, none, rfl, rfl, rfl⟩⟩

theorem processStep_disable (p : PacketProcessor) (t2 : Bool) :
    (processStep (disable p) t2).1 = disable (processStep p true).1 ∧
    (((processStep p true).2 = none ∧ (processStep (disable p) t2).2 = none) ∨
      (∃ t3 em1 em2, (processStep p true).2 = some (true, em1) ∧
        (processStep (disable p) t2).2 = some (t3, em2) ∧
        em1.map stripT = em2.map stripT)) := by
  unfold processStep
  simp only [disable_buffer]
  by_cases h1 : p.buffer.length < 5
  · rw [if_pos h1, if_pos h1]
    exact ⟨rfl, Or.inl ⟨rfl, rfl⟩⟩
  · rw [if_neg h1, if_neg h1]
    by_cases h2 : (skipToStart p.buffer).length < 5
    · rw [if_pos h2, if_pos h2]
      exact ⟨rfl, Or.inl ⟨rfl, rfl⟩⟩
    · rw [if_neg h2, if_neg h2]
      by_cases h3 : (skipToStart p.buffer).length < packetSize (skipToStart p.buffer)
      · rw [if_pos h3, if_pos h3]
        exact ⟨rfl, Or.inl ⟨rfl, rfl⟩⟩
      · rw [if_neg h3, if_neg h3]
        by_cases h4 : (skipToStart p.buffer).getD (stopPos (skipToStart p.buffer)) 0
            ≠ STOP_BYTE
        · rw [if_pos h4, if_pos h4]
          exact ⟨rfl, Or.inr ⟨t2, none, none, rfl, rfl, rfl⟩⟩
        · rw [if_neg h4, if_neg h4]
          cases hdec : decode_packet
              ((skipToStart p.buffer).take (packetSize (skipToStart p.buffer))) with
          | none => exact ⟨rfl, Or.inr ⟨t2, none, none, rfl, rfl, rfl⟩⟩
          | some s =>
            exact ⟨(gateSample_disable p t2 _ s).1, Or.inr (gateSample_disable p t2 _ s).2⟩

/-! ### Loop-level trigger-gate lemmas -/

theorem processLoop_disable_strip : ∀ (f : Nat) (p : PacketProcessor) (t2 : Bool)
    (acc1 acc2 : List AdcSample), acc1.map stripT = acc2.map stripT →
    ((processLoop f p true acc1).2.2).map stripT
      = ((processLoop f (disable p) t2 acc2).2.2).map stripT := by
  intro f
  induction f with
  | zero => intro p t2 acc1 acc2 hacc; exact hacc
  | succ n ih =>
    intro p t2 acc1 acc2 hacc
    obtain ⟨hfst, hsnd⟩ := processStep_disable p t2
    rw [processLoop_succ, processLoop_succ]
    rcases hsnd with ⟨h1, h2⟩ | ⟨t3, em1, em2, h1, h2, hmap⟩
    · have e1 : processStep p true = ((processStep p true).1, none) := by rw [← h1]
      have e2 : processStep (disable p) t2 = ((processStep (disable p) t2).1, none) := by
        rw [← h2]
      rw [e1, e2]
      exact hacc
    · have e1 : processStep p true = ((processStep p true).1, some (true, em1)) := by
        rw [← h1]
      have e2 : processStep (disable p) t2
          = (disable (processStep p true).1, some (t3, em2)) := by
        rw [← hfst, ← h2]
      rw [e1, e2]
      rcases em1 with - | s1 <;> rcases em2 with - | s2
      · exact ih (processStep p true).1 t3 acc1 acc2 hacc
      · simp at hmap
      · simp at hmap
      · refine ih (processStep p true).1 t3 (acc1 ++ [s1]) (acc2 ++ [s2]) ?_
        simp at hmap
        simp [hacc, hmap]

theorem processStep_true_snd {p p1 : PacketProcessor} {t1 : Bool} {em : Option AdcSample}
    (h : processStep p true = (p1, some (t1, em))) : t1 = true := by
  have hx : (processStep p true).2 = some (t1, em) := by rw [h]
  clear h
  simp only [processStep] at hx
  split_ifs at hx with h1 h2 h3 h4
  · simp at hx
    exact hx.1
  · split at hx
    · simp at hx
      exact hx.1
    · exact gateSample_true_fst hx

theorem processStep_emit_triggered {p p1 : PacketProcessor} {t t1 : Bool} {s : AdcSample}
    (hen : p.trigger_config.enabled = true)
    (h : processStep p t = (p1, some (t1, some s))) : t1 = true := by
  have hx : (processStep p t).2 = some (t1, some s) := by rw [h]
  clear h
  simp only [processStep] at hx
  split_ifs at hx with h1 h2 h3 h4
  · simp at hx
  · split at hx
    · simp at hx
    · exact gateSample_emit_fst hen hx

theorem processLoop_gate_stays_open : ∀ (f : Nat) (p : PacketProcessor)
    (acc : List AdcSample), (processLoop f p true acc).2.1 = true := by
  intro f
  induction f with
  | zero => intro p acc; rfl
  | succ n ih =>
    intro p acc
    rw [processLoop_succ]
    rcases hstep : processStep p true with ⟨p1, r⟩
    rcases r with - | ⟨t1, em⟩
    · rfl
    · have ht1 : t1 = true := processStep_true_snd hstep
      subst ht1
      rcases em with - | s
      · exact ih p1 acc
      · exact ih p1 (acc ++ [s])

theorem processLoop_closed_no_emit : ∀ (f : Nat) (p : PacketProcessor)
    (acc : List AdcSample), p.trigger_config.enabled = true →
    (processLoop f p false acc).2.1 = false → (processLoop f p false acc).2.2 = acc := by
  intro f
  induction f with
  | zero => intro p acc _ _; rfl
  | succ n ih =>
    intro p acc hen hfin
    rw [processLoop_succ] at hfin ⊢
    rcases hstep : processStep p false with ⟨p1, r⟩
    rw [hstep] at hfin
    rcases r with - | ⟨t1, em⟩
    · rfl
    · have hcfg : p1.trigger_config = p.trigger_config := by
        have := (processStep_fields p false).1
        rw [hstep] at this
        exact this
      rcases em with - | s
      · cases t1 with
        | true => exact absurd hfin (by rw [processLoop_gate_stays_open]; simp)
        | false => exact ih p1 acc (by rw [hcfg]; exact hen) hfin
      · have ht1 : t1 = true := processStep_emit_triggered hen hstep
        subst ht1
        exact absurd hfin (by rw [processLoop_gate_stays_open]; simp)

/-! ### Well-formed streams decode to exactly their frames' samples -/

theorem processRun_wellFormed {buf : List Nat} {samples : List AdcSample}
    {active : List Bool} (hwf : WellFormedStream active buf samples) :
    ∀ (p : PacketProcessor) (t : Bool) (acc : List AdcSample),
    p.buffer = buf → p.active_channels = active → p.trigger_config.enabled = false →
    (processRun p t acc).2.2 = acc ++ samples := by
  induction hwf with
  | trailing g hg =>
    intro p t acc hbuf hact hen
    rw [processRun_done (processStep_garbage t hbuf hg)]
    simp
  | frame5 g hg c h l hch rest samples htail ih =>
    intro p t acc hbuf hact hen
    have hstep := processStep_frame5 g c h l rest t hbuf hg
    have hact5 : p.active_channels.getD (sample5 c h l).channel false = true := by
      rw [hact]
      exact hch
    rw [gateSample_disabled hen hact5 t rest] at hstep
    rw [processRun_step hstep,
      ih (bumpCounts p rest (sample5 c h l).channel) (t || (sample5 c h l).is_trigger)
        _ rfl hact hen]
    simp
  | frame6 g hg c h l hch rest samples htail ih =>
    intro p t acc hbuf hact hen
    have hstep := processStep_frame6 g c h l rest t hbuf hg
    have hact6 : p.active_channels.getD (sample6 c h l).channel false = true := by
      rw [hact]
      exact hch
    rw [gateSample_disabled hen hact6 t rest] at hstep
    rw [processRun_step hstep,
      ih (bumpCounts p rest (sample6 c h l).channel) (t || (sample6 c h l).is_trigger)
        _ rfl hact hen]
    simp

/-! ### The leftover buffer is always shorter than a frame -/

theorem processLoop_leftover : ∀ (f : Nat) (p : PacketProcessor) (t : Bool)
    (acc : List AdcSample), p.buffer.length ≤ f →
    (((processLoop f p t acc).1).buffer).length < 5 := by
  intro f
  induction f with
  | zero =>
    intro p t acc hf
    simpa [processLoop] using by omega
  | succ n ih =>
    intro p t acc hf
    rw [processLoop_succ]
    rcases hstep : processStep p t with ⟨p1, r⟩
    rcases r with - | ⟨t1, em⟩
    · exact (processStep_none_eq hstep).1 ▸ (processStep_none_eq hstep).2
    · have hlt := processStep_some_lt hstep
      rcases em with - | s
      · exact ih p1 t1 acc (by omega)
      · exact ih p1 t1 (acc ++ [s]) (by omega)

/-! ### Arithmetic helpers for the decode claims -/

theorem land_three (c : Nat) : c &&& 0x03 = c % 4 := by
  have h2 := Nat.and_pow_two_sub_one_eq_mod c 2
  norm_num at h2
  exact h2

theorem shiftLeft_or_eq (h l : Nat) (hl : l < 256) : h <<< 8 ||| l = 256 * h + l := by
  have key := Nat.mul_add_lt_is_or (i := 8) (b := l) (by norm_num [hl]) h
  rw [Nat.shiftLeft_eq]
  norm_num at key ⊢
  rw [Nat.mul_comm h 256]
  exact key.symm

theorem processStep_counts_len (p : PacketProcessor) (t : Bool) :
    ((processStep p t).1).channel_counts.length = p.channel_counts.length := by
  simp only [processStep]
  split_ifs <;> try rfl
  split
  · rfl
  · simp only [gateSample]
    split_ifs <;> simp

/-! ### Characterization of the channel-normalization loop -/

theorem keepFirstTwo_getD : ∀ (cs : List Bool) (count i : Nat),
    (keepFirstTwo cs count).getD i false
      = (cs.getD i false
          && decide (count + ((cs.take i).filter (fun x => x)).length < 2)) := by
  intro cs
  induction cs with
  | nil => intro count i; simp [keepFirstTwo]
  | cons b rest ih =>
    intro count i
    cases b with
    | false =>
      have hkf : keepFirstTwo (false :: rest) count = false :: keepFirstTwo rest count := by
        conv_lhs => unfold keepFirstTwo
        simp
      cases i with
      | zero =>
        rw [hkf]
        simp
      | succ i =>
        rw [hkf]
        simp only [List.getD_cons_succ, List.take_succ_cons]
        rw [ih count i]
        simp only [show List.filter (fun x => x) (false :: List.take i rest)
            = List.filter (fun x => x) (List.take i rest) from by simp]
    | true =>
      by_cases hc : count < 2
      · have hkf : keepFirstTwo (true :: rest) count
            = true :: keepFirstTwo rest (count + 1) := by
          conv_lhs => unfold keepFirstTwo
          simp [hc]
        cases i with
        | zero =>
          rw [hkf]
          simp only [List.getD_cons_zero, List.take_zero, List.filter_nil,
            List.length_nil, Nat.add_zero]
          rw [decide_eq_true hc]
          simp
        | succ i =>
          rw [hkf]
          simp only [List.getD_cons_succ, List.take_succ_cons]
          rw [ih (count + 1) i]
          simp only [show List.filter (fun x => x) (true :: List.take i rest)
              = true :: List.filter (fun x => x) (List.take i rest) from by simp,
            List.length_cons]
          rw [show decide (count + 1 + (List.filter (fun x => x) (List.take i rest)).length < 2)
              = decide (count + ((List.filter (fun x => x) (List.take i rest)).length + 1) < 2)
            from decide_eq_decide.mpr (by omega)]
      · have hkf : keepFirstTwo (true :: rest) count
            = false :: keepFirstTwo rest count := by
          conv_lhs => unfold keepFirstTwo
          simp [hc]
        cases i with
        | zero =>
          rw [hkf]
          simp only [List.getD_cons_zero, List.take_zero, List.filter_nil,
            List.length_nil, Nat.add_zero]
          rw [decide_eq_false hc]
          simp
        | succ i =>
          rw [hkf]
          simp only [List.getD_cons_succ, List.take_succ_cons]
          rw [ih count i]
          simp only [show List.filter (fun x => x) (true :: List.take i rest)
              = true :: List.filter (fun x => x) (List.take i rest) from by simp,
            List.length_cons]
          rw [show decide (count + (List.filter (fun x => x) (List.take i rest)).length < 2)
              = false from decide_eq_false (by omega),
            show decide (count + ((List.filter (fun x => x) (List.take i rest)).length + 1) < 2)
              = false from decide_eq_false (by omega)]

/-! ### Trigger-hit and trigger-miss gating -/

theorem gateSample_enabled_hit {p : PacketProcessor} {s : AdcSample}
    (hact : p.active_channels.getD s.channel false = true)
    (hitp : evalTriggerPoint p s = true) (t : Bool) (rest : List Nat) :
    gateSample p t rest s
      = (bumpCounts p rest s.channel, some (true, some { s with is_trigger := true })) := by
  unfold gateSample bumpCounts
  rw [hact, hitp]
  simp

theorem gateSample_enabled_miss {p : PacketProcessor} {s : AdcSample}
    (hen : p.trigger_config.enabled = true)
    (hact : p.active_channels.getD s.channel false = true)
    (hitp : evalTriggerPoint p s = false) (rest : List Nat) :
    gateSample p false rest s = ({ p with buffer := rest }, some (false, none)) := by
  unfold gateSample
  rw [hact, hitp, hen]
  simp

/-! ### Claim theorems -/

/-- C5: `decode_packet` on a valid frame returns channel = low 2 bits of the
channel byte, `raw_value` = big-endian composition of the two value bytes, and
voltage = signed-16-bit reinterpretation of the raw value times `10 / 32768`;
in particular raw value `0x7FFF` yields `327670 / 32768 ≈ 9.99969 V` (within
`0.00001`) and raw value `0x8000` yields exactly `-10 V`. -/
theorem C5_decode_packet_semantics :
    (∀ c h l : Nat, h < 256 → l < 256 →
      decode_packet [START_BYTE, c, h, l, STOP_BYTE]
        = some { channel := c % 4, raw_value := 256 * h + l,
                 voltage := (toSigned16 (256 * h + l) : ℚ) * (10 / 32768),
                 is_trigger := false }) ∧
    (∀ r : Nat, r < 65536 →
      toSigned16 r = if r < 32768 then (r : Int) else (r : Int) - 65536) ∧
    (Option.map AdcSample.raw_value (decode_packet [0xAA, 0x00, 0x7F, 0xFF, 0x55])
      = some 0x7FFF) ∧
    (Option.map AdcSample.voltage (decode_packet [0xAA, 0x00, 0x7F, 0xFF, 0x55])
      = some (327670 / 32768)) ∧
    (|(327670 : ℚ) / 32768 - 9.99969| < 0.00001) ∧
    (Option.map AdcSample.raw_value (decode_packet [0xAA, 0x00, 0x80, 0x00, 0x55])
      = some 0x8000) ∧
    (Option.map AdcSample.voltage (decode_packet [0xAA, 0x00, 0x80, 0x00, 0x55])
      = some (-10)) := by
  refine ⟨?_, ?_, ?_, ?_, ?_, ?_, ?_⟩
  · intro c h l hh hl
    rw [decode_packet_frame5]
    have hor := shiftLeft_or_eq h l hl
    simp [sample5, land_three, hor]
  · intro r hr
    unfold toSigned16
    rw [Nat.mod_eq_of_lt hr]
    split_ifs <;> omega
  · rw [show ([0xAA, 0x00, 0x7F, 0xFF, 0x55] : List Nat)
        = [START_BYTE, 0x00, 0x7F, 0xFF, STOP_BYTE] from rfl, decode_packet_frame5]
    simp [sample5]
  · rw [show ([0xAA, 0x00, 0x7F, 0xFF, 0x55] : List Nat)
        = [START_BYTE, 0x00, 0x7F, 0xFF, STOP_BYTE] from rfl, decode_packet_frame5]
    norm_num [sample5, toSigned16, show (0x7F <<< 8 ||| 0xFF : Nat) = 32767 from by decide]
  · rw [abs_sub_lt_iff]
    constructor <;> norm_num
  · rw [show ([0xAA, 0x00, 0x80, 0x00, 0x55] : List Nat)
        = [START_BYTE, 0x00, 0x80, 0x00, STOP_BYTE] from rfl, decode_packet_frame5]
    simp [sample5]
  · rw [show ([0xAA, 0x00, 0x80, 0x00, 0x55] : List Nat)
        = [START_BYTE, 0x00, 0x80, 0x00, STOP_BYTE] from rfl, decode_packet_frame5]
    norm_num [sample5, toSigned16, show (0x80 <<< 8 ||| 0x00 : Nat) = 32768 from by decide]

/-- Witness for C5 at the concrete frame `[0xAA, 0x07, 0x12, 0x34, 0x55]`. -/
theorem C5_decode_packet_semantics_witness :
    decode_packet [START_BYTE, 0x07, 0x12, 0x34, STOP_BYTE]
      = some { channel := 0x07 % 4, raw_value := 256 * 0x12 + 0x34,
               voltage := (toSigned16 (256 * 0x12 + 0x34) : ℚ) * (10 / 32768),
               is_trigger := false } :=
  C5_decode_packet_semantics.1 0x07 0x12 0x34 (by decide) (by decide)

/-- C9: every decoded sample's channel is the channel byte masked to its low
2 bits, hence `< 4`, so indexing the length-4 `active_channels` and
`channel_counts` arrays with it is in bounds; `decode_packet` is only called
on packets of length `packet_size ∈ {5, 6}`, extracted only when at least
`packet_size` bytes are buffered; and a processing step never changes the
length of `channel_counts` (4) nor `active_channels` itself. -/
theorem C9_channel_in_bounds :
    (∀ (packet : List Nat) (s : AdcSample), decode_packet packet = some s →
      s.channel < 4) ∧
    (∀ buf : List Nat, 5 ≤ buf.length →
      (packetSize buf = 5 ∨ packetSize buf = 6) ∧
      (buf.take (packetSize buf)).length = packetSize buf) ∧
    (∀ (p : PacketProcessor) (t : Bool),
      ((processStep p t).1).active_channels = p.active_channels ∧
      ((processStep p t).1).channel_counts.length = p.channel_counts.length) := by
  refine ⟨?_, ?_, ?_⟩
  · intro packet s hdec
    exact decode_packet_channel_lt hdec
  · intro buf h5
    refine ⟨packetSize_eq_or buf, ?_⟩
    have hle := packetSize_le h5
    rw [List.length_take]
    omega
  · intro p t
    exact ⟨(processStep_fields p t).2, processStep_counts_len p t⟩

/-- Witness for C9: the decoded channel of the frame
`[0xAA, 0xFF, 0, 0, 0x55]` (channel byte `0xFF`) is below 4, and a
5-byte buffer yields packet size 5 or 6. -/
theorem C9_channel_in_bounds_witness :
    (sample5 0xFF 0 0).channel < 4 ∧
    (packetSize [0xAA, 0, 0, 0, 0x55] = 5 ∨ packetSize [0xAA, 0, 0, 0, 0x55] = 6) :=
  ⟨C9_channel_in_bounds.1 [START_BYTE, 0xFF, 0, 0, STOP_BYTE] (sample5 0xFF 0 0)
      (decode_packet_frame5 0xFF 0 0),
   (C9_channel_in_bounds.2.1 [0xAA, 0, 0, 0, 0x55] (by decide)).1⟩

/-- C6: the display buffer is a strict bounded drop-oldest FIFO — a publish at
capacity evicts exactly the single oldest record before appending, a publish
below capacity only appends, the capacity bound is preserved, publishing
A, B, C, D into capacity 3 leaves [B, C, D], and draining returns the full
FIFO sequence while emptying the buffer, returning `Ok` (never an error) even
when nothing was published since the last drain. -/
theorem C6_bounded_fifo :
    (∀ (cap : Nat) (buf : List String) (line : String), buf.length = cap →
      publishRecord cap buf line = buf.drop 1 ++ [line]) ∧
    (∀ (cap : Nat) (buf : List String) (line : String), buf.length < cap →
      publishRecord cap buf line = buf ++ [line]) ∧
    (∀ (cap : Nat) (buf : List String) (line : String), 1 ≤ cap → buf.length ≤ cap →
      (publishRecord cap buf line).length ≤ cap) ∧
    (List.foldl (publishRecord 3) [] ["A", "B", "C", "D"] = ["B", "C", "D"]) ∧
    (∀ buf : List String, get_serial_data buf = (Except.ok buf, [])) ∧
    (get_serial_data [] = (Except.ok [], [])) := by
  refine ⟨?_, ?_, ?_, by decide, fun _ => rfl, rfl⟩
  · intro cap buf line hlen
    unfold publishRecord
    rw [if_pos (le_of_eq hlen.symm)]
  · intro cap buf line hlen
    unfold publishRecord
    rw [if_neg (by omega)]
  · intro cap buf line hcap hlen
    unfold publishRecord
    split_ifs with hfull
    · simp only [List.length_append, List.length_drop, List.length_cons, List.length_nil]
      omega
    · simp only [List.length_append, List.length_cons, List.length_nil]
      omega

/-- Witness for C6: publishing into the full two-element buffer ["x", "y"]
with capacity 2 evicts exactly "x". -/
theorem C6_bounded_fifo_witness :
    publishRecord 2 ["x", "y"] "z" = ["x", "y"].drop 1 ++ ["z"] :=
  C6_bounded_fifo.1 2 ["x", "y"] "z" (by decide)

/-- C7: `set_active_channels` stores a request with at most 2 set channels
unchanged; a request with more than 2 keeps exactly the requested channels
that have fewer than 2 requested channels before them (the first two in
index order) and drops the rest, without error; `[true, true, true, true]`
normalizes to exactly channels 0 and 1 active. -/
theorem C7_channel_normalization :
    (∀ (p : PacketProcessor) (channels : List Bool),
      (channels.filter (fun x => x)).length ≤ 2 →
      (p.set_active_channels channels).active_channels = channels) ∧
    (∀ (p : PacketProcessor) (channels : List Bool),
      2 < (channels.filter (fun x => x)).length →
      ∀ i : Nat, (p.set_active_channels channels).active_channels.getD i false
        = (channels.getD i false
            && decide (((channels.take i).filter (fun x => x)).length < 2))) ∧
    ((PacketProcessor.new.set_active_channels
        [true, true, true, true]).active_channels = [true, true, false, false]) := by
  refine ⟨?_, ?_, by decide⟩
  · intro p channels hle
    unfold PacketProcessor.set_active_channels
    rw [if_neg (by omega)]
  · intro p channels hgt i
    unfold PacketProcessor.set_active_channels
    rw [if_pos hgt]
    show (keepFirstTwo channels 0).getD i false = _
    rw [keepFirstTwo_getD channels 0 i]
    simp only [Nat.zero_add]

/-- Witness for C7: requesting channels 1, 2 and 3 keeps only channels
1 and 2. -/
theorem C7_channel_normalization_witness :
    (PacketProcessor.new.set_active_channels
        [false, true, true, true]).active_channels.getD 3 false
      = ([false, true, true, true].getD 3 false
          && decide ((([false, true, true, true].take 3).filter (fun x => x)).length < 2)) :=
  C7_channel_normalization.2.1 PacketProcessor.new [false, true, true, true] (by decide) 3

/-- C8: after `stop()` the logger is not recording and holds no destination,
`stop()` returns `Ok`, a second `stop()` is a no-op that again returns `Ok`,
and any subsequent `log_sample` is a no-op that returns `Ok` without
writing. -/
theorem C8_stop_idempotent_noop :
    ∀ (l : Logger) (s : AdcSample),
      ((l.stop).1).recording = false ∧
      ((l.stop).1).file = none ∧
      (l.stop).2 = Except.ok () ∧
      ((l.stop).1).stop = ((l.stop).1, Except.ok ()) ∧
      ((l.stop).1).log_sample s = ((l.stop).1, Except.ok ()) := by
  intro l s
  exact ⟨rfl, rfl, rfl, rfl, rfl⟩

/-- C2 counterexample: with exactly the first 5 bytes of a 6-byte trigger
frame buffered (`[START, 0, 0, 0, TRIGGER]`), `process()` does NOT leave the
incomplete frame untouched — the `buffer.len() >= 6` guard makes it a 5-byte
candidate whose stop check fails, so the START byte is discarded. -/
theorem C2_counterexample :
    ((PacketProcessor.process_packets
      { PacketProcessor.new with buffer := [0xAA, 0x00, 0x00, 0x00, 0xCC] }).1).buffer
      = [0x00, 0x00, 0x00, 0xCC] ∧
    ((PacketProcessor.process_packets
      { PacketProcessor.new with buffer := [0xAA, 0x00, 0x00, 0x00, 0xCC] }).1).buffer
      ≠ [0xAA, 0x00, 0x00, 0x00, 0xCC] := by
  exact ⟨by decide, by decide⟩

/-- C2 (amended): `process()` consumes only complete frames — a buffered
5-byte frame (offset-4 byte not TRIGGER, given at least 6 bytes) or 6-byte
trigger frame at the head is consumed whole and handed to gating; a buffer
holding fewer than 5 bytes is left untouched with no samples; the leftover
buffer after a call is always shorter than 5 bytes; EXCEPT that when exactly
the first 5 bytes of a 6-byte trigger frame are buffered (5 bytes with
TRIGGER at offset 4), the candidate is misread as a failed 5-byte frame and
its START byte is discarded, leaving the remaining 4 bytes. -/
theorem C2_complete_frames_only :
    (∀ (c h l : Nat) (rest : List Nat) (p : PacketProcessor) (t : Bool),
      p.buffer = [START_BYTE, c, h, l, STOP_BYTE] ++ rest →
      processStep p t = gateSample p t rest (sample5 c h l)) ∧
    (∀ (c h l : Nat) (rest : List Nat) (p : PacketProcessor) (t : Bool),
      p.buffer = [START_BYTE, c, h, l, TRIGGER_BYTE, STOP_BYTE] ++ rest →
      processStep p t = gateSample p t rest (sample6 c h l)) ∧
    (∀ p : PacketProcessor, p.buffer.length < 5 → p.process_packets = (p, [])) ∧
    (∀ p : PacketProcessor, (((p.process_packets).1).buffer).length < 5) ∧
    (∀ (a b c : Nat) (p : PacketProcessor),
      p.buffer = [START_BYTE, a, b, c, TRIGGER_BYTE] →
      p.process_packets = ({ p with buffer := [a, b, c, TRIGGER_BYTE] }, [])) := by
  refine ⟨?_, ?_, ?_, ?_, ?_⟩
  · intro c h l rest p t hbuf
    exact processStep_frame5 [] c h l rest t (by simpa using hbuf) (by simp)
  · intro c h l rest p t hbuf
    exact processStep_frame6 [] c h l rest t (by simpa using hbuf) (by simp)
  · intro p h5
    show ((processRun p false []).1, (processRun p false []).2.2) = (p, [])
    rw [processRun_done (processStep_stop h5)]
  · intro p
    exact processLoop_leftover p.buffer.length p false [] (le_refl _)
  · intro a b c p hbuf
    have hht : hasTriggerMarker (START_BYTE :: [a, b, c, TRIGGER_BYTE]) = false := by
      unfold hasTriggerMarker
      simp
    have hstop : ((START_BYTE : Nat) :: [a, b, c, TRIGGER_BYTE]).getD
        (stopPos (START_BYTE :: [a, b, c, TRIGGER_BYTE])) 0 ≠ STOP_BYTE := by
      unfold stopPos
      rw [hht]
      simp [TRIGGER_BYTE, STOP_BYTE]
    have hstep := processStep_badStop false hbuf (by simp) hstop
    show ((processRun p false []).1, (processRun p false []).2.2)
      = ({ p with buffer := [a, b, c, TRIGGER_BYTE] }, [])
    rw [processRun_step hstep,
      processRun_done (processStep_stop (by simp))]
    simp

/-- Witness for C2: a 6-byte trigger frame at the head is consumed whole
(amended rule conjunct 2 at concrete bytes), and a buffered 5-byte trigger
prefix `[0xAA, 1, 2, 3, 0xCC]` loses exactly its START byte (conjunct 5). -/
theorem C2_complete_frames_only_witness :
    processStep { PacketProcessor.new with
        buffer := [0xAA, 0x01, 0x02, 0x03, 0xCC, 0x55] } false
      = gateSample { PacketProcessor.new with
          buffer := [0xAA, 0x01, 0x02, 0x03, 0xCC, 0x55] } false [] (sample6 1 2 3) ∧
    PacketProcessor.process_packets
        { PacketProcessor.new with buffer := [0xAA, 0x01, 0x02, 0x03, 0xCC] }
      = ({ PacketProcessor.new with buffer := [0x01, 0x02, 0x03, 0xCC] }, []) :=
  ⟨C2_complete_frames_only.2.1 1 2 3 [] _ false rfl,
   C2_complete_frames_only.2.2.2.2 1 2 3 _ rfl⟩

/-- C3 counterexample: two byte streams, each containing exactly N = 1
well-formed frame, for which `process()` after `add_bytes()` yields 0 samples
instead of 1.  First: the frame `[0xAA, 0x02, 0, 0, 0x55]` (channel 2) is
decoded but dropped by channel gating (default active channels are 0 and 1).
Second: one garbage byte `0xAA` before the channel-0 frame
`[0xAA, 0, 0, 0xCC, 0x55]` makes the decoder read a bogus 6-byte trigger
frame spanning the garbage byte, whose channel (`0xAA &&& 3 = 2`) is
inactive, so the real frame is destroyed and nothing is emitted. -/
theorem C3_counterexample :
    ((PacketProcessor.process_packets
      { PacketProcessor.new with buffer := [0xAA, 0x02, 0x00, 0x00, 0x55] }).2 = [] ∧
     decode_packet [0xAA, 0x02, 0x00, 0x00, 0x55] = some (sample5 2 0 0)) ∧
    ((PacketProcessor.process_packets
      { PacketProcessor.new with buffer := [0xAA, 0xAA, 0x00, 0x00, 0xCC, 0x55] }).2 = [] ∧
     decode_packet [0xAA, 0x00, 0x00, 0xCC, 0x55] = some (sample5 0 0 0xCC)) := by
  exact ⟨⟨by decide, decode_packet_frame5 2 0 0⟩,
    ⟨by decide, decode_packet_frame5 0 0 0xCC⟩⟩

/-- C3 (amended): for every byte stream containing N well-formed frames
whose channels are active, interleaved with arbitrary garbage bytes none of
which equals the START marker, and with trigger disabled, `process()` after
buffering the full stream yields exactly the N frames' decoded samples, in
frame order. -/
theorem C3_n_frames_n_samples :
    ∀ (p : PacketProcessor) (samples : List AdcSample),
      WellFormedStream p.active_channels p.buffer samples →
      p.trigger_config.enabled = false →
      (p.process_packets).2 = samples := by
  intro p samples hwf hen
  have h := processRun_wellFormed hwf p false [] rfl rfl hen
  show (processRun p false []).2.2 = samples
  rw [h]
  simp

/-- Witness for C3 (amended): the stream
`[7, 0xAA, 1, 2, 3, 0x55, 9]` — garbage `7`, one frame on channel 1,
trailing garbage `9` — decodes to exactly that frame's sample. -/
theorem C3_n_frames_n_samples_witness :
    WellFormedStream [true, true, false, false] [7, 0xAA, 0x01, 0x02, 0x03, 0x55, 9]
      [sample5 1 2 3] ∧
    (PacketProcessor.process_packets { PacketProcessor.new with
        buffer := [7, 0xAA, 0x01, 0x02, 0x03, 0x55, 9] }).2 = [sample5 1 2 3] := by
  have hwf : WellFormedStream [true, true, false, false]
      [7, 0xAA, 0x01, 0x02, 0x03, 0x55, 9] [sample5 1 2 3] := by
    have h : WellFormedStream [true, true, false, false]
        ([7] ++ [START_BYTE, 1, 2, 3, STOP_BYTE] ++ [9]) [sample5 1 2 3] :=
      WellFormedStream.frame5 [7] (by decide) 1 2 3 (by decide) [9] []
        (WellFormedStream.trailing [9] (by decide))
    simpa using h
  exact ⟨hwf, C3_n_frames_n_samples _ _ hwf rfl⟩

/-- C4 counterexample: insert the single corrupted byte `0xCC` before the
STOP of the frame `[0xAA, 0, 0, 1, 0x55]`, followed by the valid frame
`[0xAA, 1, 0, 2, 0x55]`.  The corrupted candidate is NOT dropped: because the
inserted byte sits at offset 4 and equals the TRIGGER marker, the candidate
parses as a valid 6-byte trigger frame and is emitted (with its trigger flag
set), so `process()` yields 2 samples, not the 1 the claim predicts. -/
theorem C4_counterexample :
    ((PacketProcessor.process_packets { PacketProcessor.new with
        buffer := [0xAA, 0x00, 0x00, 0x01, 0xCC, 0x55, 0xAA, 0x01, 0x00, 0x02, 0x55] }).2).length
      = 2 ∧
    ((PacketProcessor.process_packets { PacketProcessor.new with
        buffer := [0xAA, 0x00, 0x00, 0x01, 0xCC, 0x55, 0xAA, 0x01, 0x00, 0x02, 0x55] }).2).map
        AdcSample.is_trigger = [true, false] := by
  exact ⟨by decide, by decide⟩

/-- C4 (amended): a candidate frame whose terminal byte is not STOP loses
only its leading START byte before rescanning; consequently a single
corrupted byte inserted before a frame's STOP marker — provided the corrupted
byte is none of the START, STOP or TRIGGER markers, and the frame's interior
bytes are not the START marker — causes exactly that one candidate to be
dropped, while the next valid (active-channel, trigger disabled) frame is
still decoded correctly. -/
theorem C4_resync_recovery :
    (∀ (rest2 : List Nat) (p : PacketProcessor) (t : Bool),
      p.buffer = START_BYTE :: rest2 → 5 ≤ (START_BYTE :: rest2).length →
      (START_BYTE :: rest2).getD (stopPos (START_BYTE :: rest2)) 0 ≠ STOP_BYTE →
      processStep p t = ({ p with buffer := rest2 }, some (t, none))) ∧
    (∀ (c h l x c2 h2 l2 : Nat) (p : PacketProcessor),
      p.buffer = [START_BYTE, c, h, l, x, STOP_BYTE, START_BYTE, c2, h2, l2, STOP_BYTE] →
      x ≠ STOP_BYTE → x ≠ TRIGGER_BYTE → x ≠ START_BYTE →
      c ≠ START_BYTE → h ≠ START_BYTE → l ≠ START_BYTE →
      p.trigger_config.enabled = false →
      p.active_channels.getD (c2 &&& 0x03) false = true →
      (p.process_packets).2 = [sample5 c2 h2 l2]) := by
  constructor
  · intro rest2 p t hbuf h5 hstop
    exact processStep_badStop t hbuf h5 hstop
  · intro c h l x c2 h2 l2 p hbuf hx1 hx2 hx3 hc hh hl hen hact
    have hht : hasTriggerMarker
        (START_BYTE :: [c, h, l, x, STOP_BYTE, START_BYTE, c2, h2, l2, STOP_BYTE])
        = false := by
      unfold hasTriggerMarker
      simp [hx2]
    have hstop : ((START_BYTE : Nat)
          :: [c, h, l, x, STOP_BYTE, START_BYTE, c2, h2, l2, STOP_BYTE]).getD
        (stopPos (START_BYTE
          :: [c, h, l, x, STOP_BYTE, START_BYTE, c2, h2, l2, STOP_BYTE])) 0
        ≠ STOP_BYTE := by
      unfold stopPos
      rw [hht]
      simpa using hx1
    have hstep := processStep_badStop false hbuf (by simp) hstop
    have hwf : WellFormedStream p.active_channels
        [c, h, l, x, STOP_BYTE, START_BYTE, c2, h2, l2, STOP_BYTE]
        [sample5 c2 h2 l2] := by
      have hg : ∀ b ∈ [c, h, l, x, (STOP_BYTE : Nat)], b ≠ START_BYTE := by
        intro b hb
        simp only [List.mem_cons, List.not_mem_nil, or_false] at hb
        rcases hb with rfl | rfl | rfl | rfl | rfl
        · exact hc
        · exact hh
        · exact hl
        · exact hx3
        · decide
      have hx : WellFormedStream p.active_channels
          ([c, h, l, x, STOP_BYTE] ++ [START_BYTE, c2, h2, l2, STOP_BYTE] ++ [])
          [sample5 c2 h2 l2] :=
        WellFormedStream.frame5 [c, h, l, x, STOP_BYTE] hg c2 h2 l2 hact [] []
          (WellFormedStream.trailing [] (by simp))
      simpa using hx
    show ((processRun p false []).1, (processRun p false []).2.2).2 = [sample5 c2 h2 l2]
    rw [processRun_step hstep]
    have h := processRun_wellFormed hwf { p with
      buffer := [c, h, l, x, STOP_BYTE, START_BYTE, c2, h2, l2, STOP_BYTE] }
      false ([] ++ Option.toList none) rfl rfl hen
    rw [h]
    simp

/-- Witness for C4: corrupted byte `7` inserted before the STOP of a
channel-0 frame; the following channel-1 frame `[0xAA, 1, 0, 2, 0x55]` is
still decoded, and it is the only emitted sample. -/
theorem C4_resync_recovery_witness :
    (PacketProcessor.process_packets { PacketProcessor.new with
        buffer := [0xAA, 0x00, 0x00, 0x01, 7, 0x55, 0xAA, 0x01, 0x00, 0x02, 0x55] }).2
      = [sample5 1 0 2] :=
  C4_resync_recovery.2 0 0 1 7 1 0 2 _ rfl (by decide) (by decide) (by decide)
    (by decide) (by decide) (by decide) rfl (by decide)

/-- First call of the C1 two-call scenario: the channel-0 frame with raw
value `0x7FFF` crosses the 1 V rising-edge level, so the trigger point fires. -/
theorem c1demo_hitp1 :
    evalTriggerPoint { PacketProcessor.new with
      buffer := [0xAA, 0x00, 0x7F, 0xFF, 0x55]
      trigger_config :=
        { enabled := true, channel := 0, level := 1, rising_edge := true } }
      (sample5 0 0x7F 0xFF) = true := by
  have hv : (1 : ℚ) < (sample5 0 0x7F 0xFF).voltage := by
    show (1 : ℚ) < (toSigned16 (0x7F <<< 8 ||| 0xFF) : ℚ) * (10 / 32768)
    rw [show (0x7F <<< 8 ||| 0xFF : Nat) = 32767 from by decide]
    norm_num [toSigned16]
  unfold evalTriggerPoint
  rw [if_pos (by decide), if_pos (by decide)]
  exact decide_eq_true hv

/-- The first call of the C1 two-call scenario emits exactly the trigger
crossing sample and opens the (call-local) gate. -/
theorem c1demo_run1 :
    processRun { PacketProcessor.new with
      buffer := [0xAA, 0x00, 0x7F, 0xFF, 0x55]
      trigger_config :=
        { enabled := true, channel := 0, level := 1, rising_edge := true } } false []
      = (bumpCounts { PacketProcessor.new with
          buffer := [0xAA, 0x00, 0x7F, 0xFF, 0x55]
          trigger_config :=
            { enabled := true, channel := 0, level := 1, rising_edge := true } }
          [] (sample5 0 0x7F 0xFF).channel, true,
         [{ sample5 0 0x7F 0xFF with is_trigger := true }]) := by
  rw [processRun_step (by
      rw [processStep_frame5 [] 0x00 0x7F 0xFF []
          false (by simp [START_BYTE, STOP_BYTE]) (by simp),
        gateSample_enabled_hit (by decide) c1demo_hitp1 false []]),
    processRun_done (processStep_stop (by decide))]
  simp

/-- Second call of the C1 two-call scenario: the channel-0 frame with raw
value 0 (0 V) does not cross the 1 V level, so no trigger point fires. -/
theorem c1demo_hitp2 :
    evalTriggerPoint ((bumpCounts { PacketProcessor.new with
        buffer := [0xAA, 0x00, 0x7F, 0xFF, 0x55]
        trigger_config :=
          { enabled := true, channel := 0, level := 1, rising_edge := true } }
        [] (sample5 0 0x7F 0xFF).channel).add_bytes [0xAA, 0x00, 0x00, 0x00, 0x55])
      (sample5 0 0 0) = false := by
  have hv : ¬ ((1 : ℚ) < (sample5 0 0 0).voltage) := by
    show ¬ ((1 : ℚ) < (toSigned16 (0 <<< 8 ||| 0) : ℚ) * (10 / 32768))
    rw [show (0 <<< 8 ||| 0 : Nat) = 0 from by decide]
    norm_num [toSigned16]
  unfold evalTriggerPoint
  rw [if_pos (by decide), if_pos (by decide)]
  exact decide_eq_false hv

/-- C1 counterexample: the trigger gate does NOT survive across `process()`
calls.  With trigger enabled (channel 0, rising edge, level 1 V), a first
call whose frame crosses the level (raw `0x7FFF` ≈ 9.9997 V) opens the gate
and emits 1 sample; a second call on the same processor with a channel-0
frame below the level (raw 0, 0 V) emits nothing — the claim's "stays open
for samples decoded in later process() calls" would require that sample to
be retained. -/
theorem C1_counterexample :
    ((PacketProcessor.process_packets { PacketProcessor.new with
        buffer := [0xAA, 0x00, 0x7F, 0xFF, 0x55]
        trigger_config :=
          { enabled := true, channel := 0, level := 1, rising_edge := true } }).2).length
      = 1 ∧
    (PacketProcessor.process_packets
      (((PacketProcessor.process_packets { PacketProcessor.new with
          buffer := [0xAA, 0x00, 0x7F, 0xFF, 0x55]
          trigger_config :=
            { enabled := true, channel := 0, level := 1, rising_edge := true } }).1).add_bytes
        [0xAA, 0x00, 0x00, 0x00, 0x55])).2 = [] := by
  have hP2 : (PacketProcessor.process_packets { PacketProcessor.new with
      buffer := [0xAA, 0x00, 0x7F, 0xFF, 0x55]
      trigger_config :=
        { enabled := true, channel := 0, level := 1, rising_edge := true } }).1
      = bumpCounts { PacketProcessor.new with
          buffer := [0xAA, 0x00, 0x7F, 0xFF, 0x55]
          trigger_config :=
            { enabled := true, channel := 0, level := 1, rising_edge := true } }
          [] (sample5 0 0x7F 0xFF).channel := by
    show (processRun _ false []).1 = _
    rw [c1demo_run1]
  constructor
  · show ((processRun _ false []).2.2).length = 1
    rw [c1demo_run1]
    rfl
  · rw [hP2]
    show (processRun _ false []).2.2 = []
    rw [processRun_step (by
        rw [processStep_frame5 [] 0x00 0x00 0x00 []
            false (by simp [PacketProcessor.add_bytes, bumpCounts, START_BYTE, STOP_BYTE])
            (by simp),
          gateSample_enabled_miss (by decide) (by decide) c1demo_hitp2 []]),
      processRun_done (processStep_stop (by decide))]
    rfl

/-- C1 (amended): the trigger gate is local to one `process()` call.  Every
call starts with the gate closed (`process_packets` runs its loop with the
local flag `false`); within a call the gate is a latch — once open it stays
open for the remainder of the call; while the gate is open, the call retains
exactly the samples the trigger-disabled pipeline would retain (every
active-channel sample, up to the recomputed trigger flags); and when trigger
is enabled and the gate never opens during a call, that call emits no
samples at all. -/
theorem C1_gate_per_call :
    (∀ p : PacketProcessor,
      p.process_packets = ((processRun p false []).1, (processRun p false []).2.2)) ∧
    (∀ (f : Nat) (p : PacketProcessor) (acc : List AdcSample),
      (processLoop f p true acc).2.1 = true) ∧
    (∀ (p : PacketProcessor) (t2 : Bool), p.trigger_config.enabled = true →
      ((processRun p true []).2.2).map stripT
        = ((processRun (disable p) t2 []).2.2).map stripT) ∧
    (∀ p : PacketProcessor, p.trigger_config.enabled = true →
      (processRun p false []).2.1 = false → (p.process_packets).2 = []) := by
  refine ⟨fun p => rfl, processLoop_gate_stays_open, ?_, ?_⟩
  · intro p t2 _hen
    exact processLoop_disable_strip p.buffer.length p t2 [] [] rfl
  · intro p hen hfin
    show (processRun p false []).2.2 = []
    exact processLoop_closed_no_emit p.buffer.length p [] hen hfin

/-- Witness for C1 (amended) on a processor with trigger enabled and an
empty buffer: its run keeps the gate closed and emits nothing, and an
open-gate run matches the trigger-disabled run. -/
theorem C1_gate_per_call_witness :
    ({ PacketProcessor.new with trigger_config :=
        { enabled := true, channel := 0, level := 1, rising_edge := true } } :
      PacketProcessor).trigger_config.enabled = true ∧
    (processRun { PacketProcessor.new with trigger_config :=
        { enabled := true, channel := 0, level := 1, rising_edge := true } } false []).2.1
      = false ∧
    ((processRun { PacketProcessor.new with trigger_config :=
        { enabled := true, channel := 0, level := 1, rising_edge := true } } true []).2.2).map
        stripT
      = ((processRun (disable { PacketProcessor.new with trigger_config :=
        { enabled := true, channel := 0, level := 1, rising_edge := true } }) false []).2.2).map
        stripT ∧
    (PacketProcessor.process_packets { PacketProcessor.new with trigger_config :=
        { enabled := true, channel := 0, level := 1, rising_edge := true } }).2 = [] :=
  ⟨rfl, rfl, C1_gate_per_call.2.2.1 _ false rfl, C1_gate_per_call.2.2.2 _ rfl rfl⟩

/-- C10: when trigger is enabled, an active-channel sample on a channel other
than the trigger channel keeps its wire-level TRIGGER-marker flag as its
effective trigger flag (`evalTriggerPoint` falls back to `is_trigger`); and a
6-byte trigger frame on such a channel at the head of the buffer is emitted
first, with its trigger flag set, while every later sample in the same call
is retained exactly as the trigger-disabled pipeline would retain it — even
though no level crossing on the configured trigger channel occurred. -/
theorem C10_wire_flag_opens_gate :
    (∀ (p : PacketProcessor) (s : AdcSample),
      (s.channel == p.trigger_config.channel) = false →
      evalTriggerPoint p s = s.is_trigger) ∧
    (∀ (p : PacketProcessor) (c h l : Nat) (rest : List Nat),
      p.trigger_config.enabled = true →
      p.buffer = [START_BYTE, c, h, l, TRIGGER_BYTE, STOP_BYTE] ++ rest →
      p.active_channels.getD (c &&& 0x03) false = true →
      ((c &&& 0x03) == p.trigger_config.channel) = false →
      ((p.process_packets).2).head? = some (sample6 c h l) ∧
      ((p.process_packets).2).tail.map stripT
        = (((disable (bumpCounts p rest (c &&& 0x03))).process_packets).2).map stripT) := by
  constructor
  · intro p s hne
    unfold evalTriggerPoint
    rw [hne]
    simp
  · intro p c h l rest hen hbuf hact hne
    have hitp : evalTriggerPoint p (sample6 c h l) = true := by
      unfold evalTriggerPoint
      rw [show ((sample6 c h l).channel == p.trigger_config.channel) = false from hne]
      simp [sample6, sample5]
    have hstep : processStep p false
        = (bumpCounts p rest (c &&& 0x03),
           some (true, some { sample6 c h l with is_trigger := true })) := by
      rw [processStep_frame6 [] c h l rest false (by simpa using hbuf) (by simp),
        gateSample_enabled_hit hact hitp false rest]
      rfl
    have hrun : processRun p false []
        = processRun (bumpCounts p rest (c &&& 0x03)) true [sample6 c h l] := by
      rw [processRun_step hstep]
      rfl
    have hacc := processRun_acc (bumpCounts p rest (c &&& 0x03)) true [sample6 c h l]
    constructor
    · show ((processRun p false []).2.2).head? = some (sample6 c h l)
      rw [hrun, hacc]
      simp
    · show ((processRun p false []).2.2).tail.map stripT
        = ((processRun (disable (bumpCounts p rest (c &&& 0x03))) false []).2.2).map stripT
      rw [hrun, hacc]
      simp only [List.singleton_append, List.tail_cons]
      exact processLoop_disable_strip _ (bumpCounts p rest (c &&& 0x03)) false [] [] rfl

/-- Witness for C10: a 6-byte trigger frame on (active, non-trigger)
channel 1 while the trigger channel is 0; the frame's sample is emitted
first with its wire trigger flag, and the rest of the call matches the
trigger-disabled run. -/
theorem C10_wire_flag_opens_gate_witness :
    ((PacketProcessor.process_packets { PacketProcessor.new with
        buffer := [0xAA, 0x01, 0x00, 0x05, 0xCC, 0x55]
        trigger_config :=
          { enabled := true, channel := 0, level := 1, rising_edge := true } }).2).head?
      = some (sample6 1 0 5) ∧
    ((PacketProcessor.process_packets { PacketProcessor.new with
        buffer := [0xAA, 0x01, 0x00, 0x05, 0xCC, 0x55]
        trigger_config :=
          { enabled := true, channel := 0, level := 1, rising_edge := true } }).2).tail.map
        stripT
      = (((disable (bumpCounts { PacketProcessor.new with
          buffer := [0xAA, 0x01, 0x00, 0x05, 0xCC, 0x55]
          trigger_config :=
            { enabled := true, channel := 0, level := 1, rising_edge := true } }
          [] (1 &&& 0x03))).process_packets).2).map stripT :=
  C10_wire_flag_opens_gate.2 { PacketProcessor.new with
      buffer := [0xAA, 0x01, 0x00, 0x05, 0xCC, 0x55]
      trigger_config :=
        { enabled := true, channel := 0, level := 1, rising_edge := true } }
    1 0 5 [] rfl (by simp [START_BYTE, TRIGGER_BYTE, STOP_BYTE]) (by decide) (by decide)
